import Mathlib

/-!
Shallow embedding of the Wallet repository's orchestration and bulk
data-collection code, together with theorems checking the natural-language
specification's claims against it.

Embedded sources:
* `ml_data_collector.py` — address validation, the bulk client
  `get_bulk_wallets`, the batch loop `collect_data_in_batches`, and the
  bulk branch of `main`;
* `test_ml_connection.py` — the retrying client `call_ml_api` with
  exponential backoff;
* `start_system.py` — the process supervisor `SystemManager`
  (`check_port`, `wait_for_service`, `start_backend`, `start_frontend`,
  `cleanup`, `start_system`, `main`).

Network I/O is modelled by explicit oracle functions (one outcome per
request / per poll), sleeps by recorded numeric events, and OS processes
by explicit state values, so every definition is executable.
-/

/-! ## ml_data_collector.py -/

/-- Translation of `validate_address` (ml_data_collector.py:109-111):
`return address.startswith('0x') and len(address) == 42`.
Python's `startswith` is modelled on the string's character list. -/
def validate_address (address : String) : Bool :=
  "0x".data.isPrefixOf address.data && address.length == 42

/-- Parsed JSON body of a bulk-endpoint response, with the three keys the
collector and the spec mention (`data`, `errors`, `count`).  Every field is
optional because a Python `dict.get` may find its key absent; data records
and error entries are kept abstract as strings. -/
structure BulkBody where
  data? : Option (List String)
  errors? : Option (List String)
  count? : Option Nat
deriving DecidableEq

/-- Outcome of one POST to the bulk endpoint as seen by `get_bulk_wallets`:
either an HTTP response (status code plus parsed JSON body) or a raised
`requests` exception (timeout, connection error, ...). -/
inductive BulkHttp where
  | resp (status : Nat) (body : BulkBody)
  | exn
deriving DecidableEq

/-- Translation of `WalletAnalyticsCollector.get_bulk_wallets`
(ml_data_collector.py:37-54), JSON-format path.  One single POST;
`response.raise_for_status()` raises for any status >= 400 and the
`except RequestException` handler turns that (and any network exception)
into `None`; otherwise the parsed body is returned unchanged.  The function
performs no schema validation and no retries. -/
def get_bulk_wallets (net : List String → BulkHttp) (addresses : List String) :
    Option BulkBody :=
  match net addresses with
  | .resp status body => if 400 ≤ status then none else some body
  | .exn => none

/-- Truthiness of `result.get('data')` in Python: key present and bound to a
non-empty list. -/
def truthyData : Option (List String) → Bool
  | some (_ :: _) => true
  | _ => false

/-- The batch count computed at ml_data_collector.py:79:
`total_batches = (len(addresses) + batch_size - 1) // batch_size`. -/
def total_batches (n batchSize : Nat) : Nat :=
  (n + batchSize - 1) / batchSize

/-- The batch slices produced by the loop at ml_data_collector.py:81-82:
`for i in range(0, len(addresses), batch_size)` with
`batch = addresses[i:i + batch_size]`.  For `batch_size >= 1` the Python
range `0, b, 2b, ...` below `n` has exactly `(n + b - 1) // b` elements,
the same number the source itself computes as `total_batches`; the `k`-th
iteration slices at most `batch_size` items starting at `k * batch_size`. -/
def batchesFrom (addresses : List α) (batchSize : Nat) : List (List α) :=
  (List.range (total_batches addresses.length batchSize)).map
    (fun k => (addresses.drop (k * batchSize)).take batchSize)

/-- Translation of `WalletAnalyticsCollector.collect_data_in_batches`
(ml_data_collector.py:76-97).  `all_data` starts empty; for each batch the
bulk call's result extends `all_data` with `result['data']` exactly when
`result and result.get('data')` is truthy (an absent/None result, or a body
whose `data` key is missing or empty, contributes nothing); the
`result.get('errors')` entries are only printed, never accumulated; after a
failed batch the loop simply continues with the next batch.  The rows of
the returned DataFrame are exactly the accumulated `all_data`. -/
def collect_data_in_batches (net : List String → BulkHttp)
    (addresses : List String) (batchSize : Nat) : List String :=
  (batchesFrom addresses batchSize).foldl
    (fun allData batch =>
      match get_bulk_wallets net batch with
      | some result =>
          if truthyData result.data? then allData ++ result.data?.getD []
          else allData
      | none => allData)
    []

/-- What one batch contributes to `all_data` in `collect_data_in_batches`:
its `data` records when the call succeeded with a truthy `data` field, and
nothing otherwise. -/
def batchContribution (net : List String → BulkHttp) (batch : List String) :
    List String :=
  match get_bulk_wallets net batch with
  | some result =>
      if truthyData result.data? then result.data?.getD [] else []
  | none => []

/-- Failures recorded by `collect_data_in_batches`: the function returns only
the DataFrame built from `all_data` (ml_data_collector.py:97) and records no
per-address failures anywhere — batch errors are only printed (lines 90-91)
and a failed batch leaves no trace at all — so the recorded-failure list of
a run is the empty list. -/
def collect_recorded_failures (_net : List String → BulkHttp)
    (_addresses : List String) (_batchSize : Nat) : List String :=
  []

/-- Formalisation of claim C1 as stated: for every network behaviour, input
list and batch size >= 1, every input address appears in exactly one of the
successful records or the recorded failures (records are identified by the
address they belong to). -/
def C1_claim : Prop :=
  ∀ (net : List String → BulkHttp) (addresses : List String) (batchSize : Nat),
    1 ≤ batchSize →
    ∀ a ∈ addresses,
      (a ∈ collect_data_in_batches net addresses batchSize ∧
        a ∉ collect_recorded_failures net addresses batchSize) ∨
      (a ∉ collect_data_in_batches net addresses batchSize ∧
        a ∈ collect_recorded_failures net addresses batchSize)

/-- Valid addresses kept by `main` (ml_data_collector.py:156):
`valid_addresses = [addr for addr in addresses if validate_address(addr)]`. -/
def valid_addresses (addresses : List String) : List String :=
  addresses.filter validate_address

/-- Invalid-address count reported by `main` (ml_data_collector.py:157):
`invalid_count = len(addresses) - len(valid_addresses)`. -/
def invalid_count (addresses : List String) : Nat :=
  addresses.length - (valid_addresses addresses).length

/-- A network request the collector's `main` can issue. -/
inductive NetReq where
  | singleReq (address : String)
  | bulkReq (addresses : List String)
  | exportReq (addresses : List String)
deriving DecidableEq

/-- Addresses carried by a request. -/
def reqAddresses : NetReq → List String
  | .singleReq a => [a]
  | .bulkReq l => l
  | .exportReq l => l

/-- Network requests issued by the `--addresses` (bulk) branch of `main`
(ml_data_collector.py:149-179), in order.  An empty file aborts before any
call; addresses are filtered by `validate_address` before any call; with no
valid address `main` returns before any call; with at most 1000 valid
addresses a single POST to the export endpoint is made (`export_dataset`,
lines 56-74, posts exactly once); otherwise `collect_data_in_batches` posts
one bulk request per batch. -/
def main_bulk_requests (addresses : List String) (batchSize : Nat) : List NetReq :=
  if addresses.isEmpty then []
  else
    let valid := valid_addresses addresses
    if valid.isEmpty then []
    else if valid.length ≤ 1000 then [NetReq.exportReq valid]
    else (batchesFrom valid batchSize).map NetReq.bulkReq

/-- Process exit status of a `python ml_data_collector.py --addresses …` run
(ml_data_collector.py:149-185).  Every branch of `main` — empty file
(line 153), no valid address (line 164), and the export/batch paths —
ends in a plain `return` or falls off the end of `main`, after which the
script terminates normally, so the interpreter's exit status is 0 in each
branch. -/
def collector_bulk_exit (addresses : List String) : Nat :=
  if addresses.isEmpty then 0
  else if (valid_addresses addresses).isEmpty then 0
  else if (valid_addresses addresses).length ≤ 1000 then 0
  else 0

/-- Formalisation of the bulk-endpoint half of claim C4 as stated: a 200
response whose body is missing the `count` field is surfaced by the bulk
client as a permanent validation error (its only error signal is `None`),
rather than returned as data. -/
def C4_bulk_claim : Prop :=
  ∀ (addresses : List String) (body : BulkBody),
    body.count? = none →
    get_bulk_wallets (fun _ => BulkHttp.resp 200 body) addresses = none

/-! ## test_ml_connection.py -/

/-- Configuration constant `MAX_RETRIES = 3` (test_ml_connection.py:15). -/
def MAX_RETRIES : Nat := 3

/-- Configuration constant `INITIAL_RETRY_DELAY = 5` seconds
(test_ml_connection.py:16). -/
def INITIAL_RETRY_DELAY : Nat := 5

/-- Configuration constant `MAX_RETRY_DELAY = 20` seconds
(test_ml_connection.py:17). -/
def MAX_RETRY_DELAY : Nat := 20

/-- Parsed JSON body of a prediction response, recording whether each of the
two required fields of `validate_response` is present. -/
structure PredBody where
  predictionPresent : Bool
  typePresent : Bool
deriving DecidableEq

/-- Translation of `validate_response` (test_ml_connection.py:32-35):
`required_fields = ['prediction', 'Type']; all(field in response_data ...)`. -/
def validate_response (body : PredBody) : Bool :=
  body.predictionPresent && body.typePresent

/-- Outcome of one POST attempt in `call_ml_api`: an HTTP response with its
status code and parsed body, or one of the exceptions the code catches
(timeout, connection error, JSON decode error, anything else). -/
inductive ApiOutcome where
  | status (code : Nat) (body : PredBody)
  | timeout
  | connError
  | jsonError
  | otherExn
deriving DecidableEq

/-- How `call_ml_api` classifies one attempt (test_ml_connection.py:58-76):
a 200 response is final — success if `validate_response` accepts it,
an immediately-surfaced invalid response otherwise (`return None`,
line 65); every other status code and every caught exception falls
through to the retry logic. -/
inductive StepKind where
  | success
  | invalid
  | transient
deriving DecidableEq

/-- Classification of one attempt's outcome, following the branch structure
of test_ml_connection.py:58-76. -/
def attemptStep : ApiOutcome → StepKind
  | .status code body =>
      if code == 200 then
        if validate_response body then .success else .invalid
      else .transient
  | _ => .transient

/-- Final result of a `call_ml_api` run: data returned (200 and valid),
`None` because a 200 body failed validation, or `None` after the retry
loop gave up. -/
inductive CallResult where
  | success
  | invalidResponse
  | exhausted
deriving DecidableEq

/-- Observable event of the retry loop: one request attempt (with its
0-based index) or one backoff sleep (with its duration in seconds). -/
inductive Ev where
  | att (i : Nat)
  | sleep (d : Nat)
deriving DecidableEq

/-- Translation of the `while attempt < MAX_RETRIES` loop of `call_ml_api`
(test_ml_connection.py:37-85).  The fuel argument is `MAX_RETRIES - attempt`,
the number of loop iterations still permitted by the guard; `retryDelay`
mirrors the `retry_delay` variable.  Each iteration records an attempt
event; after a transient failure, if `attempt + 1 < MAX_RETRIES` the loop
sleeps `retry_delay` seconds, doubles it capped at `MAX_RETRY_DELAY`
(line 82: `retry_delay = min(retry_delay * 2, MAX_RETRY_DELAY)`), and
continues; otherwise it returns `None` with all retries exhausted. -/
def callAux (outcomes : Nat → ApiOutcome) :
    Nat → Nat → Nat → CallResult × List Ev
  | 0, _, _ => (.exhausted, [])
  | fuel + 1, retryDelay, attempt =>
    match attemptStep (outcomes attempt) with
    | .success => (.success, [.att attempt])
    | .invalid => (.invalidResponse, [.att attempt])
    | .transient =>
        if attempt + 1 < MAX_RETRIES then
          let rest := callAux outcomes fuel
            (min (retryDelay * 2) MAX_RETRY_DELAY) (attempt + 1)
          (rest.1, .att attempt :: .sleep retryDelay :: rest.2)
        else (.exhausted, [.att attempt])

/-- Translation of `call_ml_api` (test_ml_connection.py:37-85): the loop is
entered with `retry_delay = INITIAL_RETRY_DELAY` and `attempt = 0`. -/
def call_ml_api (outcomes : Nat → ApiOutcome) : CallResult × List Ev :=
  callAux outcomes MAX_RETRIES INITIAL_RETRY_DELAY 0

/-- Successive values of the `retry_delay` variable: `retryDelaySeq k` is the
delay slept before the `k`-th retry (0-based), starting at
`INITIAL_RETRY_DELAY` and iterating `min(retry_delay * 2, MAX_RETRY_DELAY)`. -/
def retryDelaySeq : Nat → Nat
  | 0 => INITIAL_RETRY_DELAY
  | k + 1 => min (retryDelaySeq k * 2) MAX_RETRY_DELAY

/-- Durations of the sleep events of a trace, in order. -/
def sleepsOf (evs : List Ev) : List Nat :=
  evs.filterMap fun e => match e with | .sleep d => some d | _ => none

/-- Indices of the attempt events of a trace, in order. -/
def attsOf (evs : List Ev) : List Nat :=
  evs.filterMap fun e => match e with | .att i => some i | _ => none

/-! ## start_system.py -/

/-- Outcome of one readiness poll in `SystemManager.check_port`
(start_system.py:35-41): a completed HTTP exchange with whatever status
code, or a raised exception (connection refused, timeout, ...). -/
inductive ProbeOutcome where
  | response (status : Nat)
  | failure
deriving DecidableEq

/-- Translation of `SystemManager.check_port` (start_system.py:35-41):
`requests.get(...)` followed by an unconditional `return True` — the status
code is never inspected — while the bare `except` returns `False`. -/
def check_port (outcome : ProbeOutcome) : Bool :=
  match outcome with
  | .response _ => true
  | .failure => false

/-- Loop body of `SystemManager.wait_for_service` (start_system.py:47-53):
`for i in range(max_wait): if check_port(port): return True; sleep(1)`.
The first argument of the pair is the returned boolean, the second the
number of polls actually performed.  `poll i` is the outcome of the probe
at second `i`; the first parameter counts the remaining loop iterations. -/
def wait_for_service_aux (poll : Nat → ProbeOutcome) :
    Nat → Nat → Bool × Nat
  | 0, _ => (false, 0)
  | remaining + 1, i =>
    if check_port (poll i) then (true, 1)
    else
      let rest := wait_for_service_aux poll remaining (i + 1)
      (rest.1, rest.2 + 1)

/-- Translation of `SystemManager.wait_for_service` (start_system.py:43-56):
polls `check_port` once per loop iteration, at most `maxWait` times,
returning `True` at the first success and `False` after the loop ends. -/
def wait_for_service (poll : Nat → ProbeOutcome) (maxWait : Nat := 30) : Bool :=
  (wait_for_service_aux poll maxWait 0).1

/-- Number of polls performed by a `wait_for_service` run. -/
def wait_polls (poll : Nat → ProbeOutcome) (maxWait : Nat := 30) : Nat :=
  (wait_for_service_aux poll maxWait 0).2

/-- Behaviour of one managed child process under termination, the state
`SystemManager.cleanup` observes: still running and responsive to
`terminate()` within the 5-second `wait`, still running but unresponsive
(`wait(timeout=5)` raises `TimeoutExpired`), or already terminated
(`terminate()` and `wait` are no-ops on a finished `Popen`). -/
inductive PState where
  | running
  | hung
  | terminated
deriving DecidableEq

/-- One iteration of the `cleanup` loop body (start_system.py:26-31) on one
process: `try: process.terminate(); process.wait(timeout=5) except
TimeoutExpired: process.kill()`.  The first component is the process's
state afterwards, the second records whether `kill()` was needed. -/
def cleanup_step : PState → PState × Bool
  | .running => (.terminated, false)
  | .hung => (.terminated, true)
  | .terminated => (.terminated, false)

/-- State effect of `SystemManager.cleanup` (start_system.py:23-33) on the
managed process list: the loop body is applied to every process in
`self.processes`. -/
def cleanup (processes : List PState) : List PState :=
  processes.map fun p => (cleanup_step p).1

/-- Which processes a `cleanup` invocation has to `kill()` after the grace
period, in list order. -/
def cleanup_kills (processes : List PState) : List Bool :=
  processes.map fun p => (cleanup_step p).2

/-- The two services `SystemManager` manages. -/
inductive Proc where
  | backend
  | frontend
deriving DecidableEq

/-- Observable event of a `start_system` run: spawning a child process via
`subprocess.Popen`, or requesting its termination during `cleanup`. -/
inductive SysEv where
  | spawn (p : Proc)
  | term (p : Proc)
deriving DecidableEq

/-- Environment of one `start_system.py` run, one boolean per branch point
of the source: the filesystem checks, whether each `Popen` raises, whether
each service becomes reachable within its `wait_for_service` deadline, and
whether the connection test passes.  (`test_ml_endpoints` is omitted: its
failure only prints a warning, start_system.py:208-209, and changes neither
events nor exit status.) -/
structure SysConfig where
  backendDirExists : Bool
  goInstalled : Bool
  backendSpawnOk : Bool
  backendReady : Bool
  packageJsonExists : Bool
  nodeModulesExist : Bool
  npmInstallOk : Bool
  frontendSpawnOk : Bool
  frontendReady : Bool
  connOk : Bool
deriving DecidableEq

/-- Translation of `SystemManager.start_backend` (start_system.py:58-93):
missing `backend` directory or missing Go → `False` with nothing spawned;
a raising `Popen` is caught → `False` with nothing appended; otherwise the
process is appended to `self.processes` and the result is the
`wait_for_service` verdict.  Returns (success, processes appended, events). -/
def start_backend (cfg : SysConfig) : Bool × List Proc × List SysEv :=
  if !cfg.backendDirExists then (false, [], [])
  else if !cfg.goInstalled then (false, [], [])
  else if !cfg.backendSpawnOk then (false, [], [])
  else if cfg.backendReady then (true, [.backend], [.spawn .backend])
  else (false, [.backend], [.spawn .backend])

/-- Translation of `SystemManager.start_frontend` (start_system.py:95-131):
missing `package.json` → `False`; missing `node_modules` with a failing
`npm install` → `False`; a raising `Popen` is caught → `False`; otherwise
the process is appended and the result is the `wait_for_service` verdict. -/
def start_frontend (cfg : SysConfig) : Bool × List Proc × List SysEv :=
  if !cfg.packageJsonExists then (false, [], [])
  else if !cfg.nodeModulesExist && !cfg.npmInstallOk then (false, [], [])
  else if !cfg.frontendSpawnOk then (false, [], [])
  else if cfg.frontendReady then (true, [.frontend], [.spawn .frontend])
  else (false, [.frontend], [.spawn .frontend])

/-- Event/exit effect of `SystemManager.cleanup` (start_system.py:23-33)
within a `start_system` run: a termination request for every managed
process in order, then `sys.exit(0)` — the exit code is 0 unconditionally. -/
def cleanup_sys (processes : List Proc) : List SysEv × Nat :=
  (processes.map SysEv.term, 0)

/-- Translation of `SystemManager.start_system` (start_system.py:183-230)
composed with `main` (start_system.py:240-242), as (events, process exit
code).  Backend first; on its failure `cleanup` runs and exits; only then
the frontend; on its failure, or a failed connection test, `cleanup` runs
and exits; on full success the code blocks in `while True: sleep(1)` until
an interrupt, upon which the `cleanup` signal handler runs and exits.
Every terminating path therefore goes through `cleanup`'s `sys.exit(0)`,
and `main`'s `sys.exit(0 if success else 1)` (line 242) is never reached,
`start_system` having already exited. -/
def start_system (cfg : SysConfig) : List SysEv × Nat :=
  let resB := start_backend cfg
  if !resB.1 then
    let c := cleanup_sys resB.2.1
    (resB.2.2 ++ c.1, c.2)
  else
    let resF := start_frontend cfg
    let procs := resB.2.1 ++ resF.2.1
    let evs := resB.2.2 ++ resF.2.2
    if !resF.1 then
      let c := cleanup_sys procs
      (evs ++ c.1, c.2)
    else if !cfg.connOk then
      let c := cleanup_sys procs
      (evs ++ c.1, c.2)
    else
      let c := cleanup_sys procs
      (evs ++ c.1, c.2)

/-- Processes spawned during a run, in spawn order. -/
def spawnsOf (evs : List SysEv) : List Proc :=
  evs.filterMap fun e => match e with | .spawn p => some p | _ => none

/-! ## Batch partitioning lemmas -/

theorem total_batches_zero_of_lt (b : Nat) (hb : 1 ≤ b) :
    total_batches 0 b = 0 := by
  unfold total_batches
  exact Nat.div_eq_of_lt (by omega)

theorem batchesFrom_nil (b : Nat) (hb : 1 ≤ b) :
    batchesFrom ([] : List α) b = [] := by
  simp [batchesFrom, total_batches_zero_of_lt b hb]

theorem batchesFrom_bzero (l : List α) : batchesFrom l 0 = [] := by
  simp [batchesFrom, total_batches]

theorem total_batches_succ (n b : Nat) (hb : 1 ≤ b) (hn : 1 ≤ n) :
    total_batches n b = total_batches (n - b) b + 1 := by
  unfold total_batches
  rcases le_or_lt b n with h | h
  · have he : n + b - 1 = (n - b + b - 1) + b := by omega
    rw [he, Nat.add_div_right _ (by omega)]
  · have h1 : n - b = 0 := by omega
    have h2 : (0 + b - 1) / b = 0 := Nat.div_eq_of_lt (by omega)
    rw [h1, h2]
    exact Nat.div_eq_of_lt_le (by omega) (by omega)

theorem batchesFrom_cons (l : List α) (b : Nat) (hb : 1 ≤ b) (hl : l ≠ []) :
    batchesFrom l b = l.take b :: batchesFrom (l.drop b) b := by
  have hn : 1 ≤ l.length := List.length_pos.mpr hl
  unfold batchesFrom
  rw [List.length_drop, total_batches_succ l.length b hb hn,
    List.range_succ_eq_map, List.map_cons, List.map_map]
  refine congrArg₂ List.cons (by simp) ?_
  refine List.map_congr_left ?_
  intro k _
  simp only [Function.comp_apply]
  rw [List.drop_drop]
  have he : Nat.succ k * b = b + k * b := by
    rw [Nat.succ_mul]; exact Nat.add_comm _ _
  rw [he]

theorem batchesFrom_flatten (b : Nat) (hb : 1 ≤ b) :
    ∀ (n : Nat) (l : List α), l.length ≤ n → (batchesFrom l b).flatten = l := by
  intro n
  induction n with
  | zero =>
    intro l h
    have hl : l = [] := List.length_eq_zero.mp (by omega)
    subst hl
    simp [batchesFrom_nil b hb]
  | succ n ih =>
    intro l h
    by_cases hl : l = []
    · subst hl; simp [batchesFrom_nil b hb]
    · have hn : 1 ≤ l.length := List.length_pos.mpr hl
      rw [batchesFrom_cons l b hb hl, List.flatten_cons,
        ih (l.drop b) (by rw [List.length_drop]; omega)]
      exact List.take_append_drop b l

theorem batchesFrom_batch_sizes (b : Nat) (hb : 1 ≤ b) :
    ∀ (n : Nat) (l : List α), l.length ≤ n →
      ∀ batch ∈ batchesFrom l b, 0 < batch.length ∧ batch.length ≤ b := by
  intro n
  induction n with
  | zero =>
    intro l h batch hbatch
    have hl : l = [] := List.length_eq_zero.mp (by omega)
    subst hl
    rw [batchesFrom_nil b hb] at hbatch
    cases hbatch
  | succ n ih =>
    intro l h batch hbatch
    by_cases hl : l = []
    · subst hl; rw [batchesFrom_nil b hb] at hbatch; cases hbatch
    · have hn : 1 ≤ l.length := List.length_pos.mpr hl
      rw [batchesFrom_cons l b hb hl] at hbatch
      rcases List.mem_cons.mp hbatch with hh | ht
      · subst hh
        rw [List.length_take]
        omega
      · exact ih (l.drop b) (by rw [List.length_drop]; omega) batch ht

theorem batchesFrom_eq_nil_iff (l : List α) (b : Nat) (hb : 1 ≤ b) :
    batchesFrom l b = [] ↔ l = [] := by
  constructor
  · intro h
    by_contra hl
    rw [batchesFrom_cons l b hb hl] at h
    cases h
  · intro h; subst h; exact batchesFrom_nil b hb

theorem batchesFrom_dropLast_sizes (b : Nat) (hb : 1 ≤ b) :
    ∀ (n : Nat) (l : List α), l.length ≤ n →
      ∀ batch ∈ (batchesFrom l b).dropLast, batch.length = b := by
  intro n
  induction n with
  | zero =>
    intro l h batch hbatch
    have hl : l = [] := List.length_eq_zero.mp (by omega)
    subst hl
    rw [batchesFrom_nil b hb] at hbatch
    cases hbatch
  | succ n ih =>
    intro l h batch hbatch
    by_cases hl : l = []
    · subst hl; rw [batchesFrom_nil b hb] at hbatch; cases hbatch
    · have hn : 1 ≤ l.length := List.length_pos.mpr hl
      rw [batchesFrom_cons l b hb hl] at hbatch
      rcases hrest : batchesFrom (l.drop b) b with _ | ⟨r, rs⟩
      · rw [hrest] at hbatch; cases hbatch
      · rw [hrest] at hbatch
        have hdrop : l.drop b ≠ [] := by
          intro hd
          rw [hd, batchesFrom_nil b hb] at hrest
          cases hrest
        have hlen : b < l.length := by
          have := List.length_pos.mpr hdrop
          rw [List.length_drop] at this
          omega
        rw [List.dropLast_cons₂] at hbatch
        rcases List.mem_cons.mp hbatch with hh | ht
        · subst hh
          rw [List.length_take]
          omega
        · rw [← hrest] at ht
          exact ih (l.drop b) (by rw [List.length_drop]; omega) batch ht

theorem mem_of_mem_batchesFrom {l batch : List α} {b : Nat} {a : α}
    (hb : 1 ≤ b) (hbatch : batch ∈ batchesFrom l b) (ha : a ∈ batch) :
    a ∈ l := by
  have := batchesFrom_flatten b hb l.length l le_rfl
  rw [← this]
  exact List.mem_flatten.mpr ⟨batch, hbatch, ha⟩

/-! ## Claim C2 -/

set_option maxRecDepth 4096 in
/-- C2 (confirmed): for every address list and every batch size `b >= 1`,
`collect_data_in_batches` partitions the list into `ceil(n/b)` consecutive,
non-overlapping batches — the count the source computes as `total_batches` —
each non-last batch of size exactly `b`, every batch non-empty and of size
at most `b`, and the concatenation of the batches in processing order equal
to the original list (so no duplicates and no drops).  For `n = 250` and
`b = 100` this yields 3 batches of sizes 100, 100, 50 in that order. -/
theorem C2_batch_partition :
    (∀ (addrs : List String) (b : Nat), 1 ≤ b →
      (batchesFrom addrs b).length = addrs.length ⌈/⌉ b ∧
      (batchesFrom addrs b).length = total_batches addrs.length b ∧
      (batchesFrom addrs b).flatten = addrs ∧
      (∀ batch ∈ (batchesFrom addrs b).dropLast, batch.length = b) ∧
      (∀ batch ∈ batchesFrom addrs b, 0 < batch.length ∧ batch.length ≤ b)) ∧
    (batchesFrom (List.range 250) 100).map List.length = [100, 100, 50] := by
  constructor
  · intro addrs b hb
    refine ⟨?_, ?_, batchesFrom_flatten b hb addrs.length addrs le_rfl,
      batchesFrom_dropLast_sizes b hb addrs.length addrs le_rfl,
      batchesFrom_batch_sizes b hb addrs.length addrs le_rfl⟩
    · rw [Nat.ceilDiv_eq_add_pred_div]
      simp [batchesFrom, total_batches]
    · simp [batchesFrom]
  · decide

/-- Witness for C2: the general statement applied to the concrete list
`["a", "b", "c"]` with batch size 2. -/
theorem C2_batch_partition_witness :
    (batchesFrom ["a", "b", "c"] 2).flatten = ["a", "b", "c"] ∧
    (batchesFrom ["a", "b", "c"] 2).length = 2 ∧
    (0 < (["a", "b"] : List String).length ∧ (["a", "b"] : List String).length ≤ 2) := by
  obtain ⟨h, -⟩ := C2_batch_partition
  obtain ⟨h1, h2, h3, h4, h5⟩ := h ["a", "b", "c"] 2 (by decide)
  refine ⟨h3, ?_, h5 ["a", "b"] (by decide)⟩
  rw [h2]
  decide

/-! ## Claim C1 -/

theorem foldl_batch_step (net : List String → BulkHttp)
    (l : List (List String)) (init : List String) :
    l.foldl (fun allData batch =>
      match get_bulk_wallets net batch with
      | some result =>
          if truthyData result.data? then allData ++ result.data?.getD []
          else allData
      | none => allData) init
    = init ++ (l.map (batchContribution net)).flatten := by
  induction l generalizing init with
  | nil => simp
  | cons x xs ih =>
    rw [List.foldl_cons, ih]
    cases hx : get_bulk_wallets net x with
    | none => simp [batchContribution, hx]
    | some r =>
      by_cases ht : truthyData r.data? <;>
        simp [batchContribution, hx, ht, List.append_assoc]

/-- C1 fails on the code as stated: with batch size 1 and a network on which
the single bulk call raises, the input address `"0xa"` appears in neither
the collected records (the run collects nothing) nor the recorded failures
(the code never records any) — the address is silently dropped, and
`get_bulk_wallets` has no retry for the claim's "retry exhaustion" to
refer to. -/
theorem C1_counterexample : ¬ C1_claim := by
  intro h
  have hc := h (fun _ => BulkHttp.exn) ["0xa"] 1 (by decide) "0xa" (by decide)
  rcases hc with ⟨hmem, -⟩ | ⟨-, hmem⟩
  · revert hmem; decide
  · revert hmem; decide

/-- C1 amended (proved): the collector records no failures at all — batch
errors are only printed — so an address of a failed batch appears in
neither output.  What does hold: the collected result is exactly the
concatenation, in batch order, of the per-batch contributions, where a
batch whose bulk call returns `None` (the call is a single attempt, there
is no retry) contributes nothing; the loop then continues with the
following batches, whose contributions are unaffected. -/
theorem C1_batch_failure_drops :
    (∀ (net : List String → BulkHttp) (addresses : List String) (batchSize : Nat),
      collect_data_in_batches net addresses batchSize =
        ((batchesFrom addresses batchSize).map (batchContribution net)).flatten) ∧
    (∀ (net : List String → BulkHttp) (batch : List String),
      get_bulk_wallets net batch = none → batchContribution net batch = []) ∧
    (∀ (net : List String → BulkHttp) (addresses : List String) (batchSize : Nat),
      collect_recorded_failures net addresses batchSize = []) := by
  refine ⟨?_, ?_, fun _ _ _ => rfl⟩
  · intro net addresses batchSize
    unfold collect_data_in_batches
    rw [foldl_batch_step net (batchesFrom addresses batchSize) []]
    rfl
  · intro net batch h
    unfold batchContribution
    rw [h]

/-- Witness for the amended C1: the per-batch decomposition and the
nothing-contributed fact, at a concrete failing network. -/
theorem C1_batch_failure_drops_witness :
    collect_data_in_batches (fun _ => BulkHttp.exn) ["0xa", "0xb"] 1 =
      ((batchesFrom ["0xa", "0xb"] 1).map
        (batchContribution (fun _ => BulkHttp.exn))).flatten ∧
    batchContribution (fun _ => BulkHttp.exn) ["0xa"] = [] := by
  obtain ⟨h1, h2, -⟩ := C1_batch_failure_drops
  exact ⟨h1 _ _ _, h2 _ ["0xa"] rfl⟩

/-! ## Claim C3 -/

theorem attsOf_att (i : Nat) (evs : List Ev) :
    attsOf (Ev.att i :: evs) = i :: attsOf evs := by
  simp [attsOf, List.filterMap_cons]

theorem attsOf_sleep (d : Nat) (evs : List Ev) :
    attsOf (Ev.sleep d :: evs) = attsOf evs := by
  simp [attsOf, List.filterMap_cons]

theorem sleepsOf_att (i : Nat) (evs : List Ev) :
    sleepsOf (Ev.att i :: evs) = sleepsOf evs := by
  simp [sleepsOf, List.filterMap_cons]

theorem sleepsOf_sleep (d : Nat) (evs : List Ev) :
    sleepsOf (Ev.sleep d :: evs) = d :: sleepsOf evs := by
  simp [sleepsOf, List.filterMap_cons]

theorem retryDelaySeq_closed (k : Nat) :
    retryDelaySeq k = min (INITIAL_RETRY_DELAY * 2 ^ k) MAX_RETRY_DELAY := by
  induction k with
  | zero => decide
  | succ k ih =>
    show min (retryDelaySeq k * 2) MAX_RETRY_DELAY = _
    rw [ih]
    simp only [INITIAL_RETRY_DELAY, MAX_RETRY_DELAY]
    rw [pow_succ, ← Nat.mul_assoc]
    omega

theorem retryDelaySeq_mono (k : Nat) :
    retryDelaySeq k ≤ retryDelaySeq (k + 1) := by
  rw [retryDelaySeq_closed k, retryDelaySeq_closed (k + 1)]
  simp only [INITIAL_RETRY_DELAY, MAX_RETRY_DELAY]
  have h : (2 : Nat) ^ k ≤ 2 ^ (k + 1) :=
    Nat.pow_le_pow_right (by omega) (Nat.le_succ k)
  omega

theorem callAux_att_count (outcomes : Nat → ApiOutcome) :
    ∀ (fuel d a : Nat),
      (attsOf (callAux outcomes fuel d a).2).length ≤ fuel := by
  intro fuel
  induction fuel with
  | zero => intro d a; simp [callAux, attsOf]
  | succ fuel ih =>
    intro d a
    cases h : attemptStep (outcomes a) with
    | success => simp [callAux, h, attsOf]
    | invalid => simp [callAux, h, attsOf]
    | transient =>
      by_cases hlt : a + 1 < MAX_RETRIES
      · have hrec := ih (min (d * 2) MAX_RETRY_DELAY) (a + 1)
        simp only [callAux, h, hlt, if_true]
        rw [attsOf_att, attsOf_sleep, List.length_cons]
        omega
      · simp [callAux, h, hlt, attsOf]

theorem callAux_head (outcomes : Nat → ApiOutcome) (fuel d a : Nat) :
    (callAux outcomes (fuel + 1) d a).2.head? = some (Ev.att a) := by
  cases h : attemptStep (outcomes a) with
  | success => simp [callAux, h]
  | invalid => simp [callAux, h]
  | transient =>
    by_cases hlt : a + 1 < MAX_RETRIES <;> simp [callAux, h, hlt]

theorem callAux_sleeps_getD (outcomes : Nat → ApiOutcome) :
    ∀ (fuel a j k : Nat),
      k < (sleepsOf (callAux outcomes fuel (retryDelaySeq j) a).2).length →
      (sleepsOf (callAux outcomes fuel (retryDelaySeq j) a).2).getD k 0 =
        retryDelaySeq (j + k) := by
  intro fuel
  induction fuel with
  | zero => intro a j k hk; simp [callAux, sleepsOf] at hk
  | succ fuel ih =>
    intro a j k hk
    cases h : attemptStep (outcomes a) with
    | success => simp [callAux, h, sleepsOf] at hk
    | invalid => simp [callAux, h, sleepsOf] at hk
    | transient =>
      by_cases hlt : a + 1 < MAX_RETRIES
      · have hdelay : min (retryDelaySeq j * 2) MAX_RETRY_DELAY =
            retryDelaySeq (j + 1) := rfl
        simp only [callAux, h, hlt, if_true, hdelay] at hk ⊢
        rw [sleepsOf_att, sleepsOf_sleep] at hk ⊢
        cases k with
        | zero => simp
        | succ k =>
          rw [List.getD_cons_succ]
          rw [List.length_cons] at hk
          have := ih (a + 1) (j + 1) k (by omega)
          rw [this]
          congr 1
          omega
      · simp [callAux, h, hlt, sleepsOf] at hk

/-- C3 (confirmed): in `call_ml_api` the number of attempts never exceeds
`MAX_RETRIES`; the first recorded event is an attempt, not a sleep; the
iteratively doubled-and-capped `retry_delay` equals the closed form
`min(INITIAL_RETRY_DELAY * 2^k, MAX_RETRY_DELAY)`, the sequence is
monotonically non-decreasing, and the delay slept before the `k`-th retry
(0-based) is exactly the `k`-th value of that sequence.  With the source's
constants (initial delay 5, multiplier 2) the delays slept before attempts
2 and 3 are 5 and 10 seconds. -/
theorem C3_retry_backoff :
    (∀ outcomes : Nat → ApiOutcome,
      (attsOf (call_ml_api outcomes).2).length ≤ MAX_RETRIES) ∧
    (∀ outcomes : Nat → ApiOutcome,
      (call_ml_api outcomes).2.head? = some (Ev.att 0)) ∧
    (∀ k : Nat,
      retryDelaySeq k = min (INITIAL_RETRY_DELAY * 2 ^ k) MAX_RETRY_DELAY) ∧
    (∀ k : Nat, retryDelaySeq k ≤ retryDelaySeq (k + 1)) ∧
    (∀ (outcomes : Nat → ApiOutcome) (k : Nat),
      k < (sleepsOf (call_ml_api outcomes).2).length →
      (sleepsOf (call_ml_api outcomes).2).getD k 0 = retryDelaySeq k) ∧
    sleepsOf (call_ml_api fun _ => ApiOutcome.timeout).2 = [5, 10] := by
  refine ⟨fun outcomes => callAux_att_count outcomes MAX_RETRIES INITIAL_RETRY_DELAY 0,
    fun outcomes => callAux_head outcomes 2 INITIAL_RETRY_DELAY 0,
    retryDelaySeq_closed, retryDelaySeq_mono, ?_, by decide⟩
  intro outcomes k hk
  have := callAux_sleeps_getD outcomes MAX_RETRIES 0 0 k hk
  simpa using this

/-- Witness for C3: the universally quantified parts applied to the
all-timeouts network, where both backoff sleeps occur. -/
theorem C3_retry_backoff_witness :
    (sleepsOf (call_ml_api fun _ => ApiOutcome.timeout).2).getD 0 0 = retryDelaySeq 0 ∧
    (sleepsOf (call_ml_api fun _ => ApiOutcome.timeout).2).getD 1 0 = retryDelaySeq 1 ∧
    (attsOf (call_ml_api fun _ => ApiOutcome.timeout).2).length ≤ MAX_RETRIES := by
  refine ⟨C3_retry_backoff.2.2.2.2.1 _ 0 ?_, C3_retry_backoff.2.2.2.2.1 _ 1 ?_,
    C3_retry_backoff.1 _⟩ <;> decide

/-! ## Claim C4 -/

/-- C4 fails on the code as stated for the bulk endpoint: `get_bulk_wallets`
performs no schema validation at all, so a 200 response whose body is
missing the `count` field is returned as data, not surfaced as a permanent
validation error. -/
theorem C4_counterexample : ¬ C4_bulk_claim := by
  intro h
  have hc := h ["0xa"] ⟨some ["r"], none, none⟩ rfl
  revert hc
  decide

/-- C4 amended (proved): in the retrying client `call_ml_api` a 200 response
whose body fails `validate_response` (missing `prediction`/`Type`) is
surfaced immediately after a single attempt, with no sleep and no retry,
while transient outcomes such as a 503 status are retried up to
`MAX_RETRIES` attempts (three attempts, sleeping 5 then 10 seconds) before
giving up.  The bulk client `get_bulk_wallets`, by contrast, validates
nothing — a 200 body, with or without `count`, is returned unchanged —
and retries nothing: a 503 yields `None` after its single attempt. -/
theorem C4_validation_vs_retry :
    (∀ (outcomes : Nat → ApiOutcome) (body : PredBody),
      outcomes 0 = ApiOutcome.status 200 body →
      validate_response body = false →
      call_ml_api outcomes = (CallResult.invalidResponse, [Ev.att 0])) ∧
    (∀ outcomes : Nat → ApiOutcome,
      (∀ i, attemptStep (outcomes i) = StepKind.transient) →
      call_ml_api outcomes =
        (CallResult.exhausted,
          [Ev.att 0, Ev.sleep 5, Ev.att 1, Ev.sleep 10, Ev.att 2])) ∧
    (∀ (net : List String → BulkHttp) (addresses : List String) (body : BulkBody),
      net addresses = BulkHttp.resp 200 body →
      get_bulk_wallets net addresses = some body) ∧
    (∀ (net : List String → BulkHttp) (addresses : List String) (body : BulkBody),
      net addresses = BulkHttp.resp 503 body →
      get_bulk_wallets net addresses = none) := by
  refine ⟨?_, ?_, ?_, ?_⟩
  · intro outcomes body h0 hval
    simp [call_ml_api, callAux, MAX_RETRIES, h0, attemptStep, hval]
  · intro outcomes htrans
    simp [call_ml_api, callAux, MAX_RETRIES, INITIAL_RETRY_DELAY,
      MAX_RETRY_DELAY, htrans 0, htrans 1, htrans 2]
  · intro net addresses body hnet
    simp [get_bulk_wallets, hnet]
  · intro net addresses body hnet
    simp [get_bulk_wallets, hnet]

/-- Witness for the amended C4: all four parts at concrete networks. -/
theorem C4_validation_vs_retry_witness :
    call_ml_api (fun _ => ApiOutcome.status 200 ⟨false, false⟩) =
      (CallResult.invalidResponse, [Ev.att 0]) ∧
    call_ml_api (fun _ => ApiOutcome.status 503 ⟨true, true⟩) =
      (CallResult.exhausted,
        [Ev.att 0, Ev.sleep 5, Ev.att 1, Ev.sleep 10, Ev.att 2]) ∧
    get_bulk_wallets (fun _ => BulkHttp.resp 200 ⟨some ["r"], some [], none⟩)
      ["0xa"] = some ⟨some ["r"], some [], none⟩ ∧
    get_bulk_wallets (fun _ => BulkHttp.resp 503 ⟨none, none, none⟩)
      ["0xa"] = none := by
  obtain ⟨h1, h2, h3, h4⟩ := C4_validation_vs_retry
  exact ⟨h1 _ ⟨false, false⟩ rfl rfl, h2 _ (fun i => rfl),
    h3 _ _ _ rfl, h4 _ _ _ rfl⟩

/-! ## Claim C7 -/

theorem wait_aux_true_iff (poll : Nat → ProbeOutcome) :
    ∀ (rem start : Nat),
      (wait_for_service_aux poll rem start).1 = true ↔
        ∃ k < rem, check_port (poll (start + k)) = true := by
  intro rem
  induction rem with
  | zero =>
    intro start
    simp [wait_for_service_aux]
  | succ rem ih =>
    intro start
    by_cases hp : check_port (poll start) = true
    · have hunf : wait_for_service_aux poll (rem + 1) start = (true, 1) := by
        simp [wait_for_service_aux, hp]
      rw [hunf]
      simp only [true_iff]
      exact ⟨0, by omega, by simpa using hp⟩
    · have hp' : check_port (poll start) = false := by simpa using hp
      have hunf : wait_for_service_aux poll (rem + 1) start =
          ((wait_for_service_aux poll rem (start + 1)).1,
            (wait_for_service_aux poll rem (start + 1)).2 + 1) := by
        simp [wait_for_service_aux, hp']
      rw [hunf]
      rw [show ((wait_for_service_aux poll rem (start + 1)).1,
        (wait_for_service_aux poll rem (start + 1)).2 + 1).1 =
        (wait_for_service_aux poll rem (start + 1)).1 from rfl]
      rw [ih (start + 1)]
      constructor
      · rintro ⟨k, hk, hsucc⟩
        exact ⟨k + 1, by omega,
          by rwa [show start + (k + 1) = start + 1 + k by omega]⟩
      · rintro ⟨k, hk, hsucc⟩
        cases k with
        | zero =>
          rw [Nat.add_zero, hp'] at hsucc
          cases hsucc
        | succ k =>
          exact ⟨k, by omega,
            by rwa [show start + 1 + k = start + (k + 1) by omega]⟩

theorem wait_aux_count_le (poll : Nat → ProbeOutcome) :
    ∀ (rem start : Nat), (wait_for_service_aux poll rem start).2 ≤ rem := by
  intro rem
  induction rem with
  | zero => intro start; simp [wait_for_service_aux]
  | succ rem ih =>
    intro start
    by_cases hp : check_port (poll start) = true
    · simp [wait_for_service_aux, hp]
    · have hp' : check_port (poll start) = false := by simpa using hp
      have hunf : wait_for_service_aux poll (rem + 1) start =
          ((wait_for_service_aux poll rem (start + 1)).1,
            (wait_for_service_aux poll rem (start + 1)).2 + 1) := by
        simp [wait_for_service_aux, hp']
      rw [hunf]
      have := ih (start + 1)
      simpa using this

theorem wait_aux_first_success (poll : Nat → ProbeOutcome) :
    ∀ (rem start i : Nat), i < rem →
      check_port (poll (start + i)) = true →
      (∀ j < i, check_port (poll (start + j)) = false) →
      (wait_for_service_aux poll rem start).2 = i + 1 ∧
        (wait_for_service_aux poll rem start).1 = true := by
  intro rem
  induction rem with
  | zero => intro start i hi; omega
  | succ rem ih =>
    intro start i hi hsucc hbefore
    cases i with
    | zero =>
      rw [Nat.add_zero] at hsucc
      simp [wait_for_service_aux, hsucc]
    | succ i =>
      have h0 : check_port (poll start) = false := by
        have := hbefore 0 (by omega)
        simpa using this
      have hunf : wait_for_service_aux poll (rem + 1) start =
          ((wait_for_service_aux poll rem (start + 1)).1,
            (wait_for_service_aux poll rem (start + 1)).2 + 1) := by
        simp [wait_for_service_aux, h0]
      rw [hunf]
      have hrec := ih (start + 1) i (by omega)
        (by rwa [show start + 1 + i = start + (i + 1) by omega])
        (by
          intro j hj
          have := hbefore (j + 1) (by omega)
          rwa [show start + 1 + j = start + (j + 1) by omega])
      exact ⟨by rw [show ((wait_for_service_aux poll rem (start + 1)).1,
          (wait_for_service_aux poll rem (start + 1)).2 + 1).2 =
          (wait_for_service_aux poll rem (start + 1)).2 + 1 from rfl, hrec.1],
        hrec.2⟩

/-- C7 (confirmed): `check_port` treats any completed HTTP exchange as
success regardless of status code; `wait_for_service` polls at most
`maxWait` times, returns `True` exactly when some poll within the deadline
succeeds (equivalently, returns `False` exactly when every poll within the
deadline fails), and when the first success happens at poll index `i` it
returns `True` having performed exactly `i + 1` polls. -/
theorem C7_readiness_probe :
    (∀ s : Nat, check_port (ProbeOutcome.response s) = true) ∧
    (∀ (poll : Nat → ProbeOutcome) (m : Nat),
      wait_for_service poll m = true ↔ ∃ i < m, check_port (poll i) = true) ∧
    (∀ (poll : Nat → ProbeOutcome) (m : Nat),
      wait_for_service poll m = false ↔ ∀ i < m, check_port (poll i) = false) ∧
    (∀ (poll : Nat → ProbeOutcome) (m : Nat), wait_polls poll m ≤ m) ∧
    (∀ (poll : Nat → ProbeOutcome) (m i : Nat), i < m →
      check_port (poll i) = true →
      (∀ j < i, check_port (poll j) = false) →
      wait_polls poll m = i + 1 ∧ wait_for_service poll m = true) := by
  refine ⟨fun s => rfl, ?_, ?_, ?_, ?_⟩
  · intro poll m
    have := wait_aux_true_iff poll m 0
    simpa [wait_for_service] using this
  · intro poll m
    have hiff := wait_aux_true_iff poll m 0
    simp only [Nat.zero_add] at hiff
    constructor
    · intro hfalse i hi
      by_contra hcp
      rw [Bool.not_eq_false] at hcp
      have htrue : wait_for_service poll m = true := by
        rw [wait_for_service, hiff]; exact ⟨i, hi, hcp⟩
      rw [hfalse] at htrue; cases htrue
    · intro hall
      by_contra hne
      rw [Bool.not_eq_false, wait_for_service, hiff] at hne
      obtain ⟨i, hi, hcp⟩ := hne
      rw [hall i hi] at hcp
      cases hcp
  · intro poll m
    exact wait_aux_count_le poll m 0
  · intro poll m i hi hsucc hbefore
    have := wait_aux_first_success poll m 0 i hi (by simpa using hsucc)
      (by intro j hj; simpa using hbefore j hj)
    exact ⟨this.1, this.2⟩

/-- Witness for C7: applied to a probe that fails at second 0 and completes
an exchange (status 500) at second 1, with the source's default 30-second
deadline: the probe reports ready after exactly two polls. -/
theorem C7_readiness_probe_witness :
    wait_for_service (fun i => if i = 1 then ProbeOutcome.response 500
      else ProbeOutcome.failure) 30 = true ∧
    wait_polls (fun i => if i = 1 then ProbeOutcome.response 500
      else ProbeOutcome.failure) 30 = 2 := by
  have h := C7_readiness_probe.2.2.2.2
    (fun i => if i = 1 then ProbeOutcome.response 500 else ProbeOutcome.failure)
    30 1 (by omega) (by decide) (by decide)
  exact ⟨h.2, h.1⟩

/-! ## Claim C8 -/

/-- C8 (confirmed): the `cleanup` loop is idempotent — a second pass over
the managed processes changes nothing, never raises (it is a total
function), and leaves every managed process terminated; per invocation
each process is asked to terminate and waited on, with `kill()` used
exactly for a process that outlives the 5-second grace period, and a
second invocation kills nothing. -/
theorem C8_cleanup_idempotent :
    (∀ ps : List PState, cleanup (cleanup ps) = cleanup ps) ∧
    (∀ (ps : List PState), ∀ p ∈ cleanup ps, p = PState.terminated) ∧
    (∀ ps : List PState, (cleanup ps).length = ps.length) ∧
    (cleanup_step PState.running = (PState.terminated, false) ∧
      cleanup_step PState.hung = (PState.terminated, true) ∧
      cleanup_step PState.terminated = (PState.terminated, false)) ∧
    (∀ ps : List PState,
      cleanup_kills (cleanup ps) = List.replicate ps.length false) := by
  refine ⟨?_, ?_, ?_, ⟨rfl, rfl, rfl⟩, ?_⟩
  · intro ps
    simp only [cleanup, List.map_map]
    refine List.map_congr_left ?_
    intro p _
    cases p <;> rfl
  · intro ps p hp
    simp only [cleanup, List.mem_map] at hp
    obtain ⟨q, -, hq⟩ := hp
    cases q <;> exact hq.symm
  · intro ps
    simp [cleanup]
  · intro ps
    simp only [cleanup, cleanup_kills, List.map_map]
    have hconst : ps.map ((fun p => (cleanup_step p).2) ∘ fun p => (cleanup_step p).1) =
        ps.map (fun _ => false) := by
      refine List.map_congr_left ?_
      intro p _
      cases p <;> rfl
    rw [hconst]
    induction ps with
    | nil => rfl
    | cons x xs ih => simp [List.replicate_succ, ih]

/-- Witness for C8: the idempotence equation and the all-terminated fact at
a concrete process list. -/
theorem C8_cleanup_idempotent_witness :
    cleanup (cleanup [PState.running, PState.hung, PState.terminated]) =
      cleanup [PState.running, PState.hung, PState.terminated] ∧
    PState.terminated = PState.terminated := by
  refine ⟨C8_cleanup_idempotent.1 _,
    C8_cleanup_idempotent.2.1 [PState.running] PState.terminated ?_⟩
  decide

/-! ## Claim C5 -/

/-- C5 (code bug in the source): the claimed nonzero exit codes never occur.
`SystemManager.cleanup` ends in an unconditional `sys.exit(0)`
(start_system.py:33), so every failure path of `start_system` exits with
status 0 and `main`'s `sys.exit(0 if success else 1)` (start_system.py:242)
— whose failure branch plainly intends exit code 1 — is unreachable; the
collector's `main` likewise returns normally (exit status 0) when no valid
address is found (ml_data_collector.py:162-164).  This theorem evaluates
the embedded code at the claim's failing inputs: a backend readiness
failure exits 0 (after spawning and terminating only the backend), an
address file containing only the invalid `"0xabc"` exits 0, and indeed
every supervisor run exits 0. -/
theorem C5_exit_code_always_zero :
    (start_system ⟨true, true, true, false, true, true, true, true, true, true⟩).2
      = 0 ∧
    (start_system ⟨true, true, true, false, true, true, true, true, true, true⟩).1
      = [SysEv.spawn Proc.backend, SysEv.term Proc.backend] ∧
    collector_bulk_exit ["0xabc"] = 0 ∧
    (∀ cfg : SysConfig, (start_system cfg).2 = 0) := by
  refine ⟨rfl, rfl, by decide, ?_⟩
  intro cfg
  obtain ⟨a1, a2, a3, a4, a5, a6, a7, a8, a9, a10⟩ := cfg
  cases a1 <;> cases a2 <;> cases a3 <;> cases a4 <;> cases a5 <;> cases a6 <;>
    cases a7 <;> cases a8 <;> cases a9 <;> cases a10 <;> decide

/-! ## Claim C6 -/

/-- C6 (confirmed): startup is ordered and fail-fast.  In every run the
sequence of spawns is a prefix of backend-then-frontend (so the backend is
always spawned first and the frontend never without it); every spawned
process receives a termination request before the run ends; and when the
backend fails its readiness probe the frontend is never spawned — in
particular, with the backend spawning fine but never becoming ready, the
whole run is exactly: spawn backend, terminate backend. -/
theorem C6_ordered_fail_fast :
    (∀ cfg : SysConfig,
      spawnsOf (start_system cfg).1 = [] ∨
      spawnsOf (start_system cfg).1 = [Proc.backend] ∨
      spawnsOf (start_system cfg).1 = [Proc.backend, Proc.frontend]) ∧
    (∀ (cfg : SysConfig) (p : Proc),
      SysEv.spawn p ∈ (start_system cfg).1 →
      SysEv.term p ∈ (start_system cfg).1) ∧
    (∀ cfg : SysConfig, cfg.backendReady = false →
      SysEv.spawn Proc.frontend ∉ (start_system cfg).1) ∧
    (∀ cfg : SysConfig,
      cfg.backendDirExists = true → cfg.goInstalled = true →
      cfg.backendSpawnOk = true → cfg.backendReady = false →
      (start_system cfg).1 =
        [SysEv.spawn Proc.backend, SysEv.term Proc.backend]) := by
  refine ⟨?_, ?_, ?_, ?_⟩
  · intro cfg
    obtain ⟨a1, a2, a3, a4, a5, a6, a7, a8, a9, a10⟩ := cfg
    cases a1 <;> cases a2 <;> cases a3 <;> cases a4 <;> cases a5 <;> cases a6 <;>
      cases a7 <;> cases a8 <;> cases a9 <;> cases a10 <;> decide
  · intro cfg p
    obtain ⟨a1, a2, a3, a4, a5, a6, a7, a8, a9, a10⟩ := cfg
    cases p <;> cases a1 <;> cases a2 <;> cases a3 <;> cases a4 <;> cases a5 <;>
      cases a6 <;> cases a7 <;> cases a8 <;> cases a9 <;> cases a10 <;> decide
  · intro cfg h
    obtain ⟨a1, a2, a3, a4, a5, a6, a7, a8, a9, a10⟩ := cfg
    subst h
    cases a1 <;> cases a2 <;> cases a3 <;> cases a5 <;> cases a6 <;>
      cases a7 <;> cases a8 <;> cases a9 <;> cases a10 <;> decide
  · intro cfg h1 h2 h3 h4
    obtain ⟨a1, a2, a3, a4, a5, a6, a7, a8, a9, a10⟩ := cfg
    subst h1; subst h2; subst h3; subst h4
    cases a5 <;> cases a6 <;> cases a7 <;> cases a8 <;> cases a9 <;>
      cases a10 <;> decide

/-- Witness for C6: the hypothesis-bearing parts at the concrete
configuration of a backend that spawns but never becomes ready. -/
theorem C6_ordered_fail_fast_witness :
    SysEv.spawn Proc.frontend ∉
      (start_system ⟨true, true, true, false, true, true, true, true, true,
        true⟩).1 ∧
    (start_system ⟨true, true, true, false, true, true, true, true, true,
      true⟩).1 = [SysEv.spawn Proc.backend, SysEv.term Proc.backend] ∧
    SysEv.term Proc.backend ∈
      (start_system ⟨true, true, true, false, true, true, true, true, true,
        true⟩).1 := by
  refine ⟨C6_ordered_fail_fast.2.2.1 _ rfl,
    C6_ordered_fail_fast.2.2.2 _ rfl rfl rfl rfl,
    C6_ordered_fail_fast.2.1 _ Proc.backend ?_⟩
  decide

/-! ## Claim C9 -/

theorem length_sub_filter (p : String → Bool) :
    ∀ l : List String,
      l.length - (l.filter p).length = (l.filter (fun a => !p a)).length := by
  intro l
  induction l with
  | nil => rfl
  | cons x xs ih =>
    have hle := xs.length_filter_le p
    by_cases hx : p x = true
    · simp only [List.filter_cons, hx, if_true, Bool.not_true,
        Bool.false_eq_true, if_false, List.length_cons]
      omega
    · have hx' : p x = false := by simpa using hx
      simp only [List.filter_cons, hx', Bool.false_eq_true, if_false,
        Bool.not_false, if_true, List.length_cons]
      omega

/-- C9 (confirmed): `validate_address` accepts exactly the strings that
start with `0x` and have total length 42; every address carried by any
network request the bulk branch of `main` can issue has passed
`validate_address` (invalid addresses are filtered out before any call);
the reported invalid count is the number of input addresses failing
validation; and the concrete run containing the malformed `"0xabc"` next
to one valid address reports one invalid address and proceeds with a
single export request carrying only the valid one. -/
theorem C9_address_validation :
    (∀ a : String,
      validate_address a = true ↔
        ("0x".data.isPrefixOf a.data = true ∧ a.length = 42)) ∧
    (∀ (addresses : List String) (batchSize : Nat),
      ∀ r ∈ main_bulk_requests addresses batchSize,
      ∀ a ∈ reqAddresses r, validate_address a = true) ∧
    (∀ addresses : List String,
      invalid_count addresses =
        (addresses.filter (fun a => !validate_address a)).length) ∧
    (invalid_count ["0xabc", "0xaaaaaaaaaabbbbbbbbbbccccccccccdddddddddd"] = 1 ∧
      main_bulk_requests
        ["0xabc", "0xaaaaaaaaaabbbbbbbbbbccccccccccdddddddddd"] 100 =
        [NetReq.exportReq ["0xaaaaaaaaaabbbbbbbbbbccccccccccdddddddddd"]]) := by
  refine ⟨?_, ?_, ?_, by decide, by decide⟩
  · intro a
    simp [validate_address, Bool.and_eq_true]
  · intro addresses batchSize r hr a ha
    simp only [main_bulk_requests] at hr
    split_ifs at hr with h1 h2 h3
    · cases hr
    · cases hr
    · rw [List.mem_singleton] at hr
      subst hr
      simp only [reqAddresses] at ha
      exact (List.mem_filter.mp ha).2
    · rw [List.mem_map] at hr
      obtain ⟨batch, hbatch, hreq⟩ := hr
      subst hreq
      simp only [reqAddresses] at ha
      by_cases hb : batchSize = 0
      · subst hb
        rw [batchesFrom_bzero] at hbatch
        cases hbatch
      · have hmem := mem_of_mem_batchesFrom (l := valid_addresses addresses)
          (by omega) hbatch ha
        exact (List.mem_filter.mp hmem).2
  · intro addresses
    exact length_sub_filter validate_address addresses

/-- Witness for C9: the only-valid-addresses-sent part applied to the
concrete mixed-validity run. -/
theorem C9_address_validation_witness :
    validate_address "0xaaaaaaaaaabbbbbbbbbbccccccccccdddddddddd" = true := by
  exact C9_address_validation.2.1
    ["0xabc", "0xaaaaaaaaaabbbbbbbbbbccccccccccdddddddddd"] 100
    (NetReq.exportReq ["0xaaaaaaaaaabbbbbbbbbbccccccccccdddddddddd"])
    (by decide) "0xaaaaaaaaaabbbbbbbbbbccccccccccdddddddddd" (by decide)

/-! ## Claim C10 -/

theorem valid_addresses_replicate (n : Nat) (a : String)
    (h : validate_address a = true) :
    valid_addresses (List.replicate n a) = List.replicate n a := by
  induction n with
  | zero => rfl
  | succ n ih =>
    simp only [List.replicate_succ, valid_addresses, List.filter_cons, h,
      if_true]
    simp only [valid_addresses] at ih
    rw [ih]

/-- C10 (confirmed): with at least 1 and at most 1000 valid addresses the
collector's bulk branch issues exactly one request, a POST to the export
endpoint carrying all valid addresses — no batch partitioning, pacing or
per-batch error handling is involved — while `collect_data_in_batches`
(one bulk request per batch) is entered exactly when the number of valid
addresses exceeds 1000. -/
theorem C10_export_vs_batch :
    (∀ (addresses : List String) (batchSize : Nat),
      1 ≤ (valid_addresses addresses).length →
      (valid_addresses addresses).length ≤ 1000 →
      main_bulk_requests addresses batchSize =
        [NetReq.exportReq (valid_addresses addresses)]) ∧
    (∀ (addresses : List String) (batchSize : Nat),
      1000 < (valid_addresses addresses).length →
      main_bulk_requests addresses batchSize =
        (batchesFrom (valid_addresses addresses) batchSize).map
          NetReq.bulkReq) := by
  constructor
  · intro addresses batchSize h1 h1000
    have hane : addresses.isEmpty = false := by
      cases ha : addresses with
      | nil => rw [ha] at h1; simp [valid_addresses] at h1
      | cons x xs => rfl
    have hne : (valid_addresses addresses).isEmpty = false := by
      cases hv : valid_addresses addresses with
      | nil => rw [hv] at h1; simp at h1
      | cons x xs => rfl
    simp [main_bulk_requests, hane, hne, h1000]
  · intro addresses batchSize h1000
    have h1 : 1 ≤ (valid_addresses addresses).length := by omega
    have hane : addresses.isEmpty = false := by
      cases ha : addresses with
      | nil => rw [ha] at h1; simp [valid_addresses] at h1
      | cons x xs => rfl
    have hne : (valid_addresses addresses).isEmpty = false := by
      cases hv : valid_addresses addresses with
      | nil => rw [hv] at h1; simp at h1
      | cons x xs => rfl
    have hgt : ¬ (valid_addresses addresses).length ≤ 1000 := by omega
    simp [main_bulk_requests, hane, hne, hgt]

/-- Witness for C10: one valid address goes through the single export
request; 1001 copies of a valid address go through the batch path. -/
theorem C10_export_vs_batch_witness :
    main_bulk_requests ["0xaaaaaaaaaabbbbbbbbbbccccccccccdddddddddd"] 100 =
      [NetReq.exportReq ["0xaaaaaaaaaabbbbbbbbbbccccccccccdddddddddd"]] ∧
    main_bulk_requests
        (List.replicate 1001 "0xaaaaaaaaaabbbbbbbbbbccccccccccdddddddddd") 100 =
      (batchesFrom
        (List.replicate 1001 "0xaaaaaaaaaabbbbbbbbbbccccccccccdddddddddd") 100).map
        NetReq.bulkReq := by
  have hv : valid_addresses
      (List.replicate 1001 "0xaaaaaaaaaabbbbbbbbbbccccccccccdddddddddd") =
      List.replicate 1001 "0xaaaaaaaaaabbbbbbbbbbccccccccccdddddddddd" :=
    valid_addresses_replicate 1001 _ (by decide)
  constructor
  · exact C10_export_vs_batch.1 _ 100 (by decide) (by decide)
  · have := C10_export_vs_batch.2
      (List.replicate 1001 "0xaaaaaaaaaabbbbbbbbbbccccccccccdddddddddd") 100
      (by rw [hv, List.length_replicate]; omega)
    rwa [hv] at this
